import Mathlib

/-!
Shallow embedding of the lead-radar scanner application (src/app.py):
the keyword matcher, the MongoDB-backed deduplication store, the three
scan loops (Discord / GitHub / HackerNews), content truncation, the
AI pitch call, the dashboard update operations, and the (spec-described)
notifier pipeline.  Python strings are modelled as Lean `String`
(lists of code points); `str.lower` is modelled per-character via
`Char.toLower`; MongoDB `find_one`/`insert_one` on the `leads`
collection are modelled as first-match lookup / append on a list of
documents.
-/

namespace JobSearcher

/-! ## Text primitives (Python string operations) -/

/-- Python `s.lower()`, modelled as per-character lowercasing. -/
def pyLower (s : String) : String :=
  ⟨s.data.map Char.toLower⟩

/-- Helper for Python substring containment: scans every suffix of the
haystack for the needle as a prefix. -/
def substrAux (needle : List Char) : List Char → Bool
  | [] => needle.isPrefixOf []
  | c :: t => needle.isPrefixOf (c :: t) || substrAux needle t

/-- Python `needle in hay` on strings (substring containment). -/
def pyInStr (needle hay : String) : Bool :=
  substrAux needle.data hay.data

/-- Python slicing `s[:n]`: the first `min (length s) n` code points. -/
def pyTruncate (n : Nat) (s : String) : String :=
  ⟨s.data.take n⟩

/-- `needle` occurs contiguously inside `hay` (spec-level notion of
"substring"). -/
def IsSubstringOf (needle hay : List Char) : Prop :=
  ∃ pre post, hay = pre ++ needle ++ post

/-- Spec-level "kw is a case-insensitive substring of text". -/
def ciSubstring (kw text : String) : Prop :=
  IsSubstringOf (kw.data.map Char.toLower) (text.data.map Char.toLower)

/-! ## Matcher (src/app.py lines 158-165)

```
text_to_search = message.content.lower()
matched_kw = None
for keyword in keywords:
    if keyword.lower() in text_to_search:
        matched_kw = keyword
        break
```
-/

/-- The keyword loop body: first keyword whose lowercase form occurs in
the (already lowercased) text. -/
def matchKeywordAux (t : String) : List String → Option String
  | [] => none
  | kw :: rest => if pyInStr (pyLower kw) t then some kw else matchKeywordAux t rest

/-- The matcher from `on_message`: lowercase the text once, then return
the first keyword (in configured order) contained in it. -/
def matchKeyword (keywords : List String) (text : String) : Option String :=
  matchKeywordAux (pyLower text) keywords

/-! ## Lead documents and the deduplication store -/

/-- The lead document built by the scanners (the dict literal inserted
into the `antigravity.leads` collection).  `created_at` is a UTC unix
timestamp. -/
structure Lead where
  source_id : String
  title : String
  url : String
  content : String
  tag : String
  source : String
  matched_keyword : String
  status : String
  created_at : Int
  generated_pitch : String
deriving DecidableEq

/-- The `leads` collection: a list of documents in insertion order. -/
abbrev Store := List Lead

/-- MongoDB `col.find_one(\x7b"source_id": sid\x7d)`: first document whose
`source_id` equals `sid`. -/
def find_one (s : Store) (sid : String) : Option Lead :=
  s.find? (fun l => l.source_id == sid)

/-- MongoDB `col.insert_one(doc)`: appends the document. -/
def insert_one (s : Store) (l : Lead) : Store :=
  s ++ [l]

/-- The dedup check the scanners perform: truthiness of `find_one`. -/
def dbExists (s : Store) (sid : String) : Bool :=
  (find_one s sid).isSome

/-- Number of stored documents carrying a given `source_id`. -/
def countId (s : Store) (sid : String) : Nat :=
  (s.filter (fun l => l.source_id == sid)).length

/-! ## Raw items from the three sources -/

/-- A GitHub issue as consumed by `run_github_scanner` (lines 230-249).
`body` is `none` when the JSON field is missing, in which case
`issue.get("body", "No description provided.")` supplies the default. -/
structure GhIssue where
  id : Nat
  title : String
  html_url : String
  body : Option String
  created_at : Int
deriving DecidableEq

/-- Content source for a GitHub lead: `issue.get("body", "No description provided.")`. -/
def ghContentSource (issue : GhIssue) : String :=
  issue.body.getD "No description provided."

/-- `f"gh_\x7bissue_id\x7d"`. -/
def ghSourceId (issue : GhIssue) : String :=
  "gh_" ++ toString issue.id

/-- The lead document built at lines 237-248. -/
def ghLeadDoc (kw : String) (issue : GhIssue) : Lead where
  source_id := ghSourceId issue
  title := issue.title
  url := issue.html_url
  content := pyTruncate 2000 (ghContentSource issue)
  tag := kw
  source := "GitHub"
  matched_keyword := kw
  status := "New"
  created_at := issue.created_at
  generated_pitch := ""

/-- Dedup-check-then-insert for one GitHub issue (lines 231-249): skip
when `find_one` returns a document, otherwise insert the lead. -/
def processGhIssue (kw : String) (s : Store) (issue : GhIssue) : Store :=
  if dbExists s (ghSourceId issue) then s else insert_one s (ghLeadDoc kw issue)

/-- A HackerNews Algolia hit as consumed by `run_hn_scanner`
(lines 289-318).  Optional fields model missing/null JSON values. -/
structure HnHit where
  objectID : String
  title : String
  created_at_i : Option Int
  url : Option String
  story_text : Option String
deriving DecidableEq

/-- `f"hn_\x7bhit_id\x7d"`. -/
def hnSourceId (hit : HnHit) : String :=
  "hn_" ++ hit.objectID

/-- Lines 301-303: `url = hit.get("url"); if not url: url = fallback`.
Python falsiness covers both a missing value and the empty string. -/
def hnUrl (hit : HnHit) : String :=
  match hit.url with
  | some u => if u.isEmpty then "https://news.ycombinator.com/item?id=" ++ hit.objectID else u
  | none => "https://news.ycombinator.com/item?id=" ++ hit.objectID

/-- Lines 295-299: use `created_at_i` when truthy (present and nonzero),
else the current time `now`. -/
def hnCreatedAt (now : Int) (hit : HnHit) : Int :=
  match hit.created_at_i with
  | some v => if v = 0 then now else v
  | none => now

/-- Content source for a HN lead: `hit.get("story_text") or ""`. -/
def hnContentSource (hit : HnHit) : String :=
  hit.story_text.getD ""

/-- The lead document built at lines 306-317. -/
def hnLeadDoc (now : Int) (kw : String) (hit : HnHit) : Lead where
  source_id := hnSourceId hit
  title := hit.title
  url := hnUrl hit
  content := pyTruncate 2000 (hnContentSource hit)
  tag := kw
  source := "HackerNews"
  matched_keyword := kw
  status := "New"
  created_at := hnCreatedAt now hit
  generated_pitch := ""

/-- Dedup-check-then-insert for one HN hit (lines 290-318). -/
def processHnHit (now : Int) (kw : String) (s : Store) (hit : HnHit) : Store :=
  if dbExists s (hnSourceId hit) then s else insert_one s (hnLeadDoc now kw hit)

/-- A Discord message as consumed by `on_message` (lines 150-188). -/
structure DiscordMessage where
  id : Nat
  content : String
  author_name : String
  channel_name : Option String
  guild_name : Option String
  jump_url : String
  created_at : Int
  author_is_bot : Bool
  author_is_self : Bool
deriving DecidableEq

/-- `f"discord_\x7bmessage.id\x7d"`. -/
def discordSourceId (m : DiscordMessage) : String :=
  "discord_" ++ toString m.id

/-- Line 173: channel name, or `"DM"` when the channel has no name. -/
def discordChannelName (m : DiscordMessage) : String :=
  m.channel_name.getD "DM"

/-- Line 174: guild name, or `"Direct Message"` when there is no guild. -/
def discordServerName (m : DiscordMessage) : String :=
  m.guild_name.getD "Direct Message"

/-- The lead document built at lines 176-187. -/
def discordLeadDoc (kw : String) (m : DiscordMessage) : Lead where
  source_id := discordSourceId m
  title := "Message in #" ++ discordChannelName m ++ " (" ++ discordServerName m ++ ") from "
    ++ m.author_name
  url := m.jump_url
  content := pyTruncate 2000 m.content
  tag := "#" ++ discordChannelName m
  source := "Discord"
  matched_keyword := kw
  status := "New"
  created_at := m.created_at
  generated_pitch := ""

/-- The match-and-persist step of `on_message` (lines 155-188): ignore
self/bot authors, run the keyword matcher on the message content, and
on a match insert the lead unless its `source_id` is already stored. -/
def processDiscordMessage (keywords : List String) (s : Store) (m : DiscordMessage) : Store :=
  if m.author_is_self || m.author_is_bot then s
  else
    match matchKeyword keywords m.content with
    | none => s
    | some kw =>
      if dbExists s (discordSourceId m) then s
      else insert_one s (discordLeadDoc kw m)

/-! ## Scan-loop startup behaviour (lines 205-208 and 269-272)

```
if col is None:
    scanner_state.log("❌ GitHub Scanner failed (No DB).")
    scanner_state.github_running = False
    return
```
-/

/-- What a polling scan loop can do right after its startup DB check. -/
inductive StartOutcome where
  /-- proceed into the `while running` fetch loop -/
  | enterLoop
  /-- wait the given number of seconds and re-check store availability -/
  | waitRetry (seconds : Nat)
  /-- return immediately, ending the thread -/
  | terminateNow
deriving DecidableEq

/-- Result of the startup check: the chosen behaviour, the value of the
running flag afterwards, and the log lines emitted. -/
structure EntryResult where
  outcome : StartOutcome
  running : Bool
  logs : List String
deriving DecidableEq

/-- `run_github_scanner` startup (lines 202-210): with no store it logs,
clears `github_running` and returns; otherwise it enters the loop. -/
def githubScannerEntry (col : Option Store) (running : Bool) : EntryResult :=
  match col with
  | none => ⟨.terminateNow, false, ["❌ GitHub Scanner failed (No DB)."]⟩
  | some _ => ⟨.enterLoop, running, ["🐙 GitHub Scanner started."]⟩

/-- `run_hn_scanner` startup (lines 266-274): same shape. -/
def hnScannerEntry (col : Option Store) (running : Bool) : EntryResult :=
  match col with
  | none => ⟨.terminateNow, false, ["❌ HN Scanner failed (No DB)."]⟩
  | some _ => ⟨.enterLoop, running, ["📰 HackerNews Scanner started."]⟩

/-! ## Interruptible long-interval sleep (lines 257-259 and 326-328)

```
for _ in range(300):
    if not scanner_state.github_running: break
    time.sleep(1)
```
Discrete-time model: `flag t` is the value of the running flag at the
t-th one-second check tick of the sleep. -/

/-- Runs the remaining `n` ticks starting at tick `t`; returns the tick
at which the sleep loop exits (the first tick with the flag cleared, or
`t + n` when the flag stays set). -/
def sleepLoopAux (flag : Nat → Bool) : Nat → Nat → Nat
  | 0, t => t
  | n + 1, t => if flag t then sleepLoopAux flag n (t + 1) else t

/-- Tick at which the 300-second interruptible sleep exits. -/
def sleepExitTick (flag : Nat → Bool) : Nat :=
  sleepLoopAux flag 300 0

/-- After the sleep the `while scanner_state.*_running` condition is
re-evaluated; a fresh fetch cycle starts only if the flag is still set
at the exit tick. -/
def startsAnotherFetchCycle (flag : Nat → Bool) : Bool :=
  flag (sleepExitTick flag)

/-! ## AI pitch call (`generate_pitch`, lines 90-120) -/

/-- JSON values, for the decoded chat-completion response. -/
inductive Json where
  | null
  | str (s : String)
  | num (n : Int)
  | arr (xs : List Json)
  | obj (fields : List (String × Json))

/-- Abstraction of Python `repr`/f-string interpolation of a decoded
JSON value (the exact rendering is irrelevant to every claim). -/
def jsonRepr : Json → String
  | .null => "None"
  | .str s => s
  | .num n => toString n
  | .arr xs => "<list of " ++ toString xs.length ++ " items>"
  | .obj fields => "<dict of " ++ toString fields.length ++ " items>"

/-- Python `j[k]` for a string key: `KeyError`/`TypeError` surface as
`Except.error`. -/
def pyGetKey : Json → String → Except String Json
  | .obj fields, k =>
    match fields.find? (fun p => p.1 == k) with
    | some p => .ok p.2
    | none => .error ("KeyError: " ++ k)
  | _, _ => .error "TypeError: object is not subscriptable by a string key"

/-- Python `j[i]` for a nonnegative integer index. -/
def pyGetIdx : Json → Nat → Except String Json
  | .arr xs, i =>
    match xs[i]? with
    | some x => .ok x
    | none => .error "IndexError: list index out of range"
  | .str s, i =>
    match s.data[i]? with
    | some c => .ok (.str ⟨[c]⟩)
    | none => .error "IndexError: string index out of range"
  | _, _ => .error "TypeError: object is not subscriptable by an index"

/-- Python `len(j)`. -/
def pyLen : Json → Except String Nat
  | .arr xs => .ok xs.length
  | .str s => .ok s.data.length
  | .obj fields => .ok fields.length
  | _ => .error "TypeError: object has no len"

/-- Python `k in j` for a string `k`. -/
def pyContainsKey : Json → String → Except String Bool
  | .obj fields, k => .ok (fields.any (fun p => p.1 == k))
  | .str s, k => .ok (pyInStr k s)
  | .arr xs, k =>
    .ok (xs.any (fun x => match x with | .str t => t == k | _ => false))
  | _, _ => .error "TypeError: argument is not iterable"

/-- Outcome of `requests.post(...)` followed by `resp.json()`: either an
exception (network error, timeout, undecodable body) or a decoded JSON
value. -/
inductive HttpOutcome where
  | exn (msg : String)
  | ok (body : Json)

/-- The body of the `try` block of `generate_pitch` (lines 113-118),
with Python exceptions propagated as `Except.error`:
`if "choices" in resp_json and len(resp_json["choices"]) > 0:` then
return `resp_json["choices"][0]["message"]["content"]`, else return the
"Unexpected API Response" string. -/
def generatePitchTry (j : Json) : Except String Json :=
  match pyContainsKey j "choices" with
  | .error m => .error m
  | .ok hasChoices =>
    match (if hasChoices then
            match pyGetKey j "choices" with
            | .error m => .error m
            | .ok cs =>
              match pyLen cs with
              | .error m => .error m
              | .ok n => .ok (decide (0 < n))
          else .ok false : Except String Bool) with
    | .error m => .error m
    | .ok cond =>
      if cond then
        match pyGetKey j "choices" with
        | .error m => .error m
        | .ok cs =>
          match pyGetIdx cs 0 with
          | .error m => .error m
          | .ok c0 =>
            match pyGetKey c0 "message" with
            | .error m => .error m
            | .ok msg => pyGetKey msg "content"
      else .ok (.str ("Unexpected API Response: " ++ jsonRepr j))

/-- `generate_pitch` (lines 90-120): every exception raised inside the
`try` block — including by the HTTP call itself — is caught and turned
into the "Error generating pitch" string. -/
def generate_pitch (r : HttpOutcome) : Json :=
  match r with
  | .exn m => .str ("Error generating pitch: " ++ m)
  | .ok j =>
    match generatePitchTry j with
    | .ok v => v
    | .error m => .str ("Error generating pitch: " ++ m)

/-- Spec-side successful extraction: `choices[0].message.content` when
the response has that shape. -/
def happyContent (j : Json) : Option Json :=
  match (pyGetKey j "choices").toOption with
  | some (.arr (c0 :: _)) =>
    match (pyGetKey c0 "message").toOption with
    | some msg => (pyGetKey msg "content").toOption
    | none => none
  | _ => none

/-- Spec-side successful extraction lifted to the HTTP outcome. -/
def happyOf : HttpOutcome → Option Json
  | .exn _ => none
  | .ok j => happyContent j

/-! ## Dashboard update operations (lines 500-503 and 564-566)

MongoDB `update_one(filter, \x7b"$set": sets\x7d)` applied to a matched
document, modelled at the level of one document's field map. -/

/-- A stored field value: string or integer timestamp. -/
inductive Val where
  | s (v : String)
  | i (v : Int)
deriving DecidableEq

/-- A BSON document as an ordered field map. -/
abbrev Doc := List (String × Val)

/-- Field lookup in a document. -/
def lookupField (d : Doc) (k : String) : Option Val :=
  (d.find? (fun p => p.1 == k)).map (fun p => p.2)

/-- `$set` of a single field: replace it where present, else append it. -/
def setField (d : Doc) (k : String) (v : Val) : Doc :=
  if d.any (fun p => p.1 == k) then
    d.map (fun p => if p.1 == k then (k, v) else p)
  else d ++ [(k, v)]

/-- `$set` of a whole update document, field by field. -/
def applySet (d : Doc) (sets : List (String × Val)) : Doc :=
  sets.foldl (fun acc p => setField acc p.1 p.2) d

/-- The `$set` document of the pitch-button handler (lines 500-503). -/
def pitchUpdateSets (pitch : String) : List (String × Val) :=
  [("status", .s "Pitched"), ("generated_pitch", .s pitch)]

/-- The `$set` document of the archive status handler (line 565). -/
def statusUpdateSets (newStatus : String) : List (String × Val) :=
  [("status", .s newStatus)]

/-! ## Spec-described notifier pipeline -/

/-- A normalized raw item handed from an adapter to the pipeline. -/
structure RawItem where
  source_id : String
  title : String
  content : String
  url : String
  source : String
  created_at : Int
deriving DecidableEq

/-- A webhook message posted by the Notifier, with its delivery result. -/
structure Notification where
  text : String
  delivered : Bool
deriving DecidableEq

/-- Modelled from the spec: `Notifier.notify` posts a formatted markdown
message containing the lead's url (spec section 4.5 and section 6
"Webhook notify"); this component is absent from src/. -/
def notifyText (l : Lead) : String :=
  "New lead: " ++ l.title ++ " " ++ l.url

/-- The lead built from a normalized raw item and its matched keyword. -/
def rawLeadDoc (kw : String) (it : RawItem) : Lead where
  source_id := it.source_id
  title := it.title
  url := it.url
  content := pyTruncate 2000 it.content
  tag := kw
  source := it.source
  matched_keyword := kw
  status := "New"
  created_at := it.created_at
  generated_pitch := ""

/-- Modelled from the spec: one pipeline step of the data flow
`Adapter.fetch → Matcher.match → (if new) Store.insert → Notifier.notify`
(spec section 2), with persist-then-notify ordering and best-effort
notification (spec section 4.5): the Notifier is absent from src/, so the
webhook call is modelled as emitting one `Notification` whose delivery
result `notifyOk` affects nothing else.  The matcher runs on the
lowercased concatenation of title and body (spec section 4.2). -/
def specPipelineStep (keywords : List String) (s : Store) (it : RawItem)
    (notifyOk : Bool) : Store × List Notification :=
  match matchKeyword keywords (it.title ++ " " ++ it.content) with
  | none => (s, [])
  | some kw =>
    if dbExists s it.source_id then (s, [])
    else
      (insert_one s (rawLeadDoc kw it), [⟨notifyText (rawLeadDoc kw it), notifyOk⟩])

/-! ## Shared shape of the three scan steps, and concrete fixtures -/

/-- The check-then-insert shape shared by all three match-and-persist
steps (`find_one` truthy → skip, else `insert_one`). -/
def dedupStep (sid : String) (doc : Lead) (s : Store) : Store :=
  if dbExists s sid then s else insert_one s doc

/-- A concrete stored lead, for witnesses. -/
def sampleLead : Lead where
  source_id := "gh_1"
  title := "Native crash help wanted"
  url := "https://example.com/issue/1"
  content := "segfault in the native module"
  tag := "help wanted"
  source := "GitHub"
  matched_keyword := "help wanted"
  status := "New"
  created_at := 0
  generated_pitch := ""

/-- A concrete GitHub issue, for witnesses. -/
def sampleIssue : GhIssue where
  id := 7
  title := "Native crash help wanted"
  html_url := "https://example.com/issue/7"
  body := some "the app crashes on startup"
  created_at := 100

/-- A concrete HackerNews hit, for witnesses. -/
def sampleHit : HnHit where
  objectID := "42"
  title := "Freelance bug hunting"
  created_at_i := some 5
  url := none
  story_text := some "looking for freelance help"

/-- A concrete Discord message, for witnesses. -/
def sampleMsg : DiscordMessage where
  id := 9
  content := "urgent bug in my scraper"
  author_name := "alice"
  channel_name := some "general"
  guild_name := some "devs"
  jump_url := "https://example.com/msg/9"
  created_at := 50
  author_is_bot := false
  author_is_self := false

/-- A GitHub issue whose body has exactly 2001 characters. -/
def longIssue : GhIssue where
  id := 8
  title := "long body"
  html_url := "https://example.com/issue/8"
  body := some ⟨List.replicate 2001 'a'⟩
  created_at := 0

/-- A concrete normalized raw item, for the notifier witness. -/
def sampleRaw : RawItem where
  source_id := "gh_1"
  title := "Native crash help wanted"
  content := ""
  url := "https://example.com/issue/1"
  source := "GitHub"
  created_at := 0

/-- A concrete chat-completion response with the expected shape. -/
def sampleGoodResponse : Json :=
  .obj [("choices", .arr [.obj [("message", .obj [("content", .str "Hi, I can fix this.")])]])]

/-! ## Helper lemmas: substring containment -/

theorem isPrefixOf_eq_true_iff (n h : List Char) :
    n.isPrefixOf h = true ↔ ∃ post, h = n ++ post := by
  induction n generalizing h with
  | nil => simp [List.isPrefixOf]
  | cons a as ih =>
    cases h with
    | nil => simp [List.isPrefixOf]
    | cons b bs =>
      simp only [List.isPrefixOf, Bool.and_eq_true, beq_iff_eq, ih, List.cons_append,
        List.cons.injEq]
      constructor
      · rintro ⟨rfl, post, rfl⟩
        exact ⟨post, rfl, rfl⟩
      · rintro ⟨post, rfl, rfl⟩
        exact ⟨rfl, post, rfl⟩

theorem substrAux_eq_true_iff (n h : List Char) :
    substrAux n h = true ↔ IsSubstringOf n h := by
  induction h with
  | nil =>
    simp only [substrAux, isPrefixOf_eq_true_iff, IsSubstringOf]
    constructor
    · rintro ⟨post, hp⟩
      exact ⟨[], post, by simpa using hp⟩
    · rintro ⟨pre, post, hp⟩
      have hlen := congrArg List.length hp
      simp only [List.length_nil, List.length_append] at hlen
      have hn : n = [] := List.length_eq_zero.mp (by omega)
      exact ⟨[], by simp [hn]⟩
  | cons c t ih =>
    simp only [substrAux, Bool.or_eq_true, isPrefixOf_eq_true_iff, ih, IsSubstringOf]
    constructor
    · rintro (⟨post, hp⟩ | ⟨pre, post, hp⟩)
      · exact ⟨[], post, by simpa using hp⟩
      · exact ⟨c :: pre, post, by rw [hp]; rfl⟩
    · rintro ⟨pre, post, hp⟩
      cases pre with
      | nil => exact Or.inl ⟨post, by simpa using hp⟩
      | cons c2 pre2 =>
        simp only [List.cons_append] at hp
        injection hp with h1 h2
        exact Or.inr ⟨pre2, post, h2⟩

/-- The per-keyword test the matcher performs is exactly the spec-level
case-insensitive substring relation. -/
theorem ciSubstring_iff (kw text : String) :
    ciSubstring kw text ↔ pyInStr (pyLower kw) (pyLower text) = true :=
  Iff.symm (substrAux_eq_true_iff (kw.data.map Char.toLower) (text.data.map Char.toLower))

/-! ## C2: the matcher returns the first case-insensitive keyword match -/

/-- C2: for every ordered keyword list and every text, the matcher
returns `none` exactly when no keyword is a case-insensitive substring
of the text, and when it returns `some kw` then `kw` occurs at some
index `i` of the list, is a case-insensitive substring of the text, and
no keyword at an earlier index matches — first-match-wins in configured
order. -/
theorem matcher_returns_first_ci_match (keywords : List String) (text : String) :
    (matchKeyword keywords text = none ↔ ∀ kw ∈ keywords, ¬ ciSubstring kw text) ∧
    (∀ kw, matchKeyword keywords text = some kw →
      ∃ i, ∃ hi : i < keywords.length, keywords.get ⟨i, hi⟩ = kw ∧ ciSubstring kw text ∧
        ∀ kw2 ∈ keywords.take i, ¬ ciSubstring kw2 text) := by
  induction keywords with
  | nil => simp [matchKeyword, matchKeywordAux]
  | cons k ks ih =>
    have hstep : matchKeyword (k :: ks) text =
        if pyInStr (pyLower k) (pyLower text) then some k else matchKeyword ks text := rfl
    by_cases hc : pyInStr (pyLower k) (pyLower text) = true
    · have hm : matchKeyword (k :: ks) text = some k := by rw [hstep, hc]; rfl
      have hci : ciSubstring k text := (ciSubstring_iff k text).mpr hc
      constructor
      · constructor
        · intro h0
          rw [hm] at h0
          cases h0
        · intro hall
          exact absurd hci (hall k (List.mem_cons_self k ks))
      · intro kw hkw
        rw [hm] at hkw
        injection hkw with hkk
        subst hkk
        exact ⟨0, by simp, rfl, hci, by simp⟩
    · have hcf : pyInStr (pyLower k) (pyLower text) = false := by
        cases hv : pyInStr (pyLower k) (pyLower text)
        · rfl
        · exact absurd hv hc
      have hm : matchKeyword (k :: ks) text = matchKeyword ks text := by rw [hstep, hcf]; rfl
      have hnci : ¬ ciSubstring k text := fun hci => hc ((ciSubstring_iff k text).mp hci)
      constructor
      · rw [hm]
        constructor
        · intro h0 kw hkw
          rcases List.mem_cons.mp hkw with rfl | hmem
          · exact hnci
          · exact (ih.1.mp h0) kw hmem
        · intro hall
          exact ih.1.mpr fun kw hkw => hall kw (List.mem_cons_of_mem k hkw)
      · intro kw hkw
        rw [hm] at hkw
        obtain ⟨i, hi, hget, hci, hearlier⟩ := ih.2 kw hkw
        refine ⟨i + 1, by simpa using Nat.succ_lt_succ hi, hget, hci, ?_⟩
        intro kw2 hkw2
        rw [List.take_succ_cons] at hkw2
        rcases List.mem_cons.mp hkw2 with rfl | hmem
        · exact hnci
        · exact hearlier kw2 hmem

/-- C2 witness: a keyword that is not a substring yields no match. -/
theorem matcher_returns_first_ci_match_witness : matchKeyword ["zzz"] "abc" = none :=
  (matcher_returns_first_ci_match ["zzz"] "abc").1.mpr (by
    intro kw hkw
    rw [List.mem_singleton] at hkw
    subst hkw
    rw [ciSubstring_iff]
    decide)

/-! ## Helper lemmas: the deduplication store -/

theorem dbExists_eq_true_iff (s : Store) (sid : String) :
    dbExists s sid = true ↔ ∃ l ∈ s, l.source_id = sid := by
  simp [dbExists, find_one, List.find?_isSome]

theorem dbExists_eq_false_iff (s : Store) (sid : String) :
    dbExists s sid = false ↔ ∀ l ∈ s, l.source_id ≠ sid := by
  constructor
  · intro h l hl he
    have : dbExists s sid = true := (dbExists_eq_true_iff s sid).mpr ⟨l, hl, he⟩
    rw [h] at this
    cases this
  · intro h
    cases hv : dbExists s sid
    · rfl
    · obtain ⟨l, hl, he⟩ := (dbExists_eq_true_iff s sid).mp hv
      exact absurd he (h l hl)

theorem foldl_insert_one (s : Store) (ops : List Lead) :
    ops.foldl insert_one s = s ++ ops := by
  induction ops generalizing s with
  | nil => simp
  | cons a t ih => simp [List.foldl_cons, insert_one, ih]

/-! ## C1: insert-then-exists contract of the dedup store -/

/-- C1: once a lead with id `S` has been inserted, `exists S` (the
truthiness of `find_one`) returns true after any further sequence of
inserts; and on a store built purely by inserting leads none of which
carries id `S`, `exists S` returns false. -/
theorem dedup_insert_then_exists :
    (∀ (s : Store) (l : Lead) (later : List Lead) (S : String), l.source_id = S →
      dbExists (later.foldl insert_one (insert_one s l)) S = true) ∧
    (∀ (ops : List Lead) (S : String), (∀ l ∈ ops, l.source_id ≠ S) →
      dbExists (ops.foldl insert_one ([] : Store)) S = false) := by
  constructor
  · intro s l later S hS
    rw [foldl_insert_one, dbExists_eq_true_iff]
    exact ⟨l, by simp [insert_one], hS⟩
  · intro ops S h
    rw [foldl_insert_one, List.nil_append, dbExists_eq_false_iff]
    exact h

/-- C1 witness: after inserting `sampleLead` (id "gh_1") and then one
more lead, `exists "gh_1"` is true; a store of just `sampleLead` has no
lead with id "hn_9". -/
theorem dedup_insert_then_exists_witness :
    dbExists ([sampleLead].foldl insert_one (insert_one [] sampleLead)) "gh_1" = true ∧
    dbExists ([sampleLead].foldl insert_one ([] : Store)) "hn_9" = false :=
  ⟨dedup_insert_then_exists.1 [] sampleLead [sampleLead] "gh_1" rfl,
   dedup_insert_then_exists.2 [sampleLead] "hn_9" (by decide)⟩

/-! ## Helper lemmas: the check-then-insert step -/

theorem processGhIssue_eq_dedupStep (kw : String) (s : Store) (issue : GhIssue) :
    processGhIssue kw s issue = dedupStep (ghSourceId issue) (ghLeadDoc kw issue) s := rfl

theorem processHnHit_eq_dedupStep (now : Int) (kw : String) (s : Store) (hit : HnHit) :
    processHnHit now kw s hit = dedupStep (hnSourceId hit) (hnLeadDoc now kw hit) s := rfl

theorem dbExists_insert_self (s : Store) (doc : Lead) :
    dbExists (insert_one s doc) doc.source_id = true :=
  (dbExists_eq_true_iff _ _).mpr ⟨doc, by simp [insert_one], rfl⟩

theorem dedupStep_idem (sid : String) (doc : Lead) (s : Store) (h : doc.source_id = sid) :
    dedupStep sid doc (dedupStep sid doc s) = dedupStep sid doc s := by
  unfold dedupStep
  cases he : dbExists s sid
  · have hins : dbExists (insert_one s doc) sid = true := h ▸ dbExists_insert_self s doc
    simp [he, hins]
  · simp [he]

theorem countId_append (s t : Store) (sid : String) :
    countId (s ++ t) sid = countId s sid + countId t sid := by
  simp [countId, List.filter_append]

theorem countId_eq_zero_of_not_exists (s : Store) (sid : String)
    (h : dbExists s sid = false) : countId s sid = 0 := by
  rw [dbExists_eq_false_iff] at h
  simp only [countId, List.length_eq_zero, List.filter_eq_nil_iff]
  intro l hl
  simpa using h l hl

theorem dbExists_eq_false_of_countId_zero (s : Store) (sid : String)
    (h : countId s sid = 0) : dbExists s sid = false := by
  rw [dbExists_eq_false_iff]
  simp only [countId, List.length_eq_zero, List.filter_eq_nil_iff] at h
  intro l hl
  simpa using h l hl

theorem dedupStep_countId_one (sid : String) (doc : Lead) (s : Store)
    (h : doc.source_id = sid) (h0 : countId s sid = 0) :
    countId (dedupStep sid doc s) sid = 1 := by
  have hf : dbExists s sid = false := dbExists_eq_false_of_countId_zero s sid h0
  unfold dedupStep
  rw [hf]
  simp only [Bool.false_eq_true, if_false, insert_one, countId_append, h0]
  simp [countId, h]

theorem processDiscordMessage_eq (kws : List String) (s : Store) (m : DiscordMessage) :
    processDiscordMessage kws s m =
      if m.author_is_self || m.author_is_bot then s
      else
        match matchKeyword kws m.content with
        | none => s
        | some kw => dedupStep (discordSourceId m) (discordLeadDoc kw m) s := rfl

/-! ## C3: processing the same raw item twice persists exactly one lead -/

/-- C3: the match-and-persist step of each scan loop is idempotent on
the store — the second pass finds the stored `source_id` and inserts
nothing — and running it twice on an item whose id is not yet stored
leaves exactly one lead with that id. -/
theorem scan_step_idempotent :
    (∀ kw s issue, processGhIssue kw (processGhIssue kw s issue) issue
      = processGhIssue kw s issue) ∧
    (∀ now kw s hit, processHnHit now kw (processHnHit now kw s hit) hit
      = processHnHit now kw s hit) ∧
    (∀ kws s m, processDiscordMessage kws (processDiscordMessage kws s m) m
      = processDiscordMessage kws s m) ∧
    (∀ kw s issue, countId s (ghSourceId issue) = 0 →
      countId (processGhIssue kw (processGhIssue kw s issue) issue) (ghSourceId issue) = 1) ∧
    (∀ now kw s hit, countId s (hnSourceId hit) = 0 →
      countId (processHnHit now kw (processHnHit now kw s hit) hit) (hnSourceId hit) = 1) ∧
    (∀ kws s m kw, m.author_is_self = false → m.author_is_bot = false →
      matchKeyword kws m.content = some kw → countId s (discordSourceId m) = 0 →
      countId (processDiscordMessage kws (processDiscordMessage kws s m) m)
        (discordSourceId m) = 1) := by
  refine ⟨?_, ?_, ?_, ?_, ?_, ?_⟩
  · intro kw s issue
    rw [processGhIssue_eq_dedupStep, processGhIssue_eq_dedupStep]
    exact dedupStep_idem _ _ _ rfl
  · intro now kw s hit
    rw [processHnHit_eq_dedupStep, processHnHit_eq_dedupStep]
    exact dedupStep_idem _ _ _ rfl
  · intro kws s m
    cases hg : (m.author_is_self || m.author_is_bot)
    · cases hm : matchKeyword kws m.content with
      | none =>
        have he : ∀ s2, processDiscordMessage kws s2 m = s2 := fun s2 => by
          simp [processDiscordMessage_eq, hg, hm]
        simp [he]
      | some kw =>
        have he : ∀ s2, processDiscordMessage kws s2 m
            = dedupStep (discordSourceId m) (discordLeadDoc kw m) s2 := fun s2 => by
          simp [processDiscordMessage_eq, hg, hm]
        simp only [he]
        exact dedupStep_idem _ _ _ rfl
    · have he : ∀ s2, processDiscordMessage kws s2 m = s2 := fun s2 => by
        simp [processDiscordMessage_eq, hg]
      simp [he]
  · intro kw s issue h0
    rw [processGhIssue_eq_dedupStep, processGhIssue_eq_dedupStep]
    have hid := dedupStep_idem (ghSourceId issue) (ghLeadDoc kw issue) s rfl
    rw [hid]
    exact dedupStep_countId_one _ _ _ rfl h0
  · intro now kw s hit h0
    rw [processHnHit_eq_dedupStep, processHnHit_eq_dedupStep]
    have hid := dedupStep_idem (hnSourceId hit) (hnLeadDoc now kw hit) s rfl
    rw [hid]
    exact dedupStep_countId_one _ _ _ rfl h0
  · intro kws s m kw hs hb hm h0
    have hg : (m.author_is_self || m.author_is_bot) = false := by rw [hs, hb]; rfl
    have he : ∀ s2, processDiscordMessage kws s2 m
        = dedupStep (discordSourceId m) (discordLeadDoc kw m) s2 := fun s2 => by
      simp [processDiscordMessage_eq, hg, hm]
    simp only [he]
    have hid := dedupStep_idem (discordSourceId m) (discordLeadDoc kw m) s rfl
    rw [hid]
    exact dedupStep_countId_one _ _ _ rfl h0

/-- C3 witness: processing `sampleIssue` twice against an empty store
leaves exactly one lead with its id. -/
theorem scan_step_idempotent_witness :
    countId (processGhIssue "bounty" (processGhIssue "bounty" [] sampleIssue) sampleIssue)
      (ghSourceId sampleIssue) = 1 :=
  scan_step_idempotent.2.2.2.1 "bounty" [] sampleIssue rfl

/-! ## C4: content is truncated to the first 2000 characters -/

/-- C4: for every raw item, the `content` stored by each of the three
lead builders is the first `min (length) 2000` characters of the
source content; a source content of exactly 2001 characters is stored
truncated to 2000 characters, and one of exactly 2000 characters is
stored unmodified. -/
theorem content_truncated_to_2000 :
    (∀ kw issue, (ghLeadDoc kw issue).content.data = (ghContentSource issue).data.take 2000 ∧
      (ghLeadDoc kw issue).content.data.length = min (ghContentSource issue).data.length 2000) ∧
    (∀ now kw hit, (hnLeadDoc now kw hit).content.data = (hnContentSource hit).data.take 2000 ∧
      (hnLeadDoc now kw hit).content.data.length = min (hnContentSource hit).data.length 2000) ∧
    (∀ kw m, (discordLeadDoc kw m).content.data = m.content.data.take 2000 ∧
      (discordLeadDoc kw m).content.data.length = min m.content.data.length 2000) ∧
    (∀ kw issue, (ghContentSource issue).data.length = 2001 →
      (ghLeadDoc kw issue).content.data.length = 2000) ∧
    (∀ kw issue, (ghContentSource issue).data.length = 2000 →
      (ghLeadDoc kw issue).content = ghContentSource issue) ∧
    (∀ kw m, m.content.data.length = 2000 → (discordLeadDoc kw m).content = m.content) := by
  have hdata : ∀ s : String, (pyTruncate 2000 s).data = s.data.take 2000 := fun s => rfl
  have hlen : ∀ s : String, (pyTruncate 2000 s).data.length = min s.data.length 2000 := by
    intro s
    rw [hdata, List.length_take, Nat.min_comm]
  have hfull : ∀ s : String, s.data.length = 2000 → pyTruncate 2000 s = s := by
    intro s h
    show (⟨s.data.take 2000⟩ : String) = s
    rw [← h, List.take_length]
  refine ⟨fun kw issue => ⟨rfl, hlen _⟩, fun now kw hit => ⟨rfl, hlen _⟩,
    fun kw m => ⟨rfl, hlen _⟩, ?_, ?_, ?_⟩
  · intro kw issue h
    have := hlen (ghContentSource issue)
    rw [h] at this
    exact this
  · intro kw issue h
    exact hfull (ghContentSource issue) h
  · intro kw m h
    exact hfull m.content h

/-- C4 witness: a 2001-character GitHub issue body is stored with
exactly 2000 characters. -/
theorem content_truncated_to_2000_witness :
    (ghLeadDoc "bounty" longIssue).content.data.length = 2000 :=
  content_truncated_to_2000.2.2.2.1 "bounty" longIssue
    (by
      have h1 : (ghContentSource longIssue).data = List.replicate 2001 'a' := rfl
      rw [h1, List.length_replicate])

/-! ## C5: behaviour when the store is unreachable at scan-loop start -/

/-- C5 counterexample: with the store unreachable at startup, the
GitHub and HN scan loops do not enter a wait-and-retry state — each
logs the failure and terminates immediately, clearing its running
flag; in particular the outcome is not a 60-second wait-retry. -/
theorem store_unreachable_no_retry_counterexample :
    (githubScannerEntry none true).outcome = StartOutcome.terminateNow ∧
    (githubScannerEntry none true).outcome ≠ StartOutcome.waitRetry 60 ∧
    (hnScannerEntry none true).outcome = StartOutcome.terminateNow ∧
    (hnScannerEntry none true).outcome ≠ StartOutcome.waitRetry 60 := by
  refine ⟨rfl, ?_, rfl, ?_⟩ <;> intro h <;> cases h

/-- C5 amended: when the persistent store is unreachable at scan-loop
start, the loop neither crashes nor busy-loops: it logs the failure,
sets its running flag to false and terminates immediately, without any
wait-and-retry; with a reachable store it enters the fetch loop. -/
theorem store_unreachable_logs_and_terminates :
    (∀ r, githubScannerEntry none r
      = ⟨StartOutcome.terminateNow, false, ["❌ GitHub Scanner failed (No DB)."]⟩) ∧
    (∀ r, hnScannerEntry none r
      = ⟨StartOutcome.terminateNow, false, ["❌ HN Scanner failed (No DB)."]⟩) ∧
    (∀ s r, (githubScannerEntry (some s) r).outcome = StartOutcome.enterLoop) ∧
    (∀ s r, (hnScannerEntry (some s) r).outcome = StartOutcome.enterLoop) :=
  ⟨fun _ => rfl, fun _ => rfl, fun _ _ => rfl, fun _ _ => rfl⟩

/-! ## C6: a stop request is honored inside the long-interval sleep -/

theorem sleepLoopAux_exits_at_stop (flag : Nat → Bool) :
    ∀ (n t0 t : Nat), t0 ≤ t → t < t0 + n → flag t = false →
      sleepLoopAux flag n t0 ≤ t ∧ flag (sleepLoopAux flag n t0) = false := by
  intro n
  induction n with
  | zero =>
    intro t0 t h1 h2 _
    omega
  | succ n ih =>
    intro t0 t h1 h2 hf
    by_cases h0 : flag t0 = true
    · have hne : t0 ≠ t := fun he => by rw [← he, h0] at hf; cases hf
      have hrec := ih (t0 + 1) t (by omega) (by omega) hf
      have hstep : sleepLoopAux flag (n + 1) t0 = sleepLoopAux flag n (t0 + 1) := by
        show (if flag t0 = true then sleepLoopAux flag n (t0 + 1) else t0)
          = sleepLoopAux flag n (t0 + 1)
        simp [h0]
      rw [hstep]
      exact hrec
    · have h0f : flag t0 = false := by
        cases hv : flag t0
        · rfl
        · exact absurd hv h0
      have hstep : sleepLoopAux flag (n + 1) t0 = t0 := by
        show (if flag t0 = true then sleepLoopAux flag n (t0 + 1) else t0) = t0
        simp [h0f]
      rw [hstep]
      exact ⟨h1, h0f⟩

/-- C6: if the running flag is cleared at check tick `t` of the
300-second interruptible sleep (one check per second), the sleep loop
exits no later than tick `t`, and the `while running` re-check then
fails, so no further fetch cycle is started. -/
theorem stop_honored_at_next_tick (flag : Nat → Bool) (t : Nat)
    (ht : t < 300) (hf : flag t = false) :
    sleepExitTick flag ≤ t ∧ startsAnotherFetchCycle flag = false := by
  have h := sleepLoopAux_exits_at_stop flag 300 0 t (Nat.zero_le t) (by omega) hf
  exact ⟨h.1, h.2⟩

/-- C6 witness: a flag cleared from tick 5 onward stops the sleep by
tick 5 and prevents another fetch cycle. -/
theorem stop_honored_at_next_tick_witness :
    sleepExitTick (fun t => decide (t < 5)) ≤ 5 ∧
    startsAnotherFetchCycle (fun t => decide (t < 5)) = false :=
  stop_honored_at_next_tick (fun t => decide (t < 5)) 5 (by omega) (by decide)

/-! ## Helper lemmas: the pitch call -/

theorem happyContent_def (j : Json) :
    happyContent j =
      match (pyGetKey j "choices").toOption with
      | some (.arr (c0 :: _)) =>
        match (pyGetKey c0 "message").toOption with
        | some msg => (pyGetKey msg "content").toOption
        | none => none
      | _ => none := rfl

theorem pyGetKey_ok (j : Json) (k : String) (v : Json) (h : pyGetKey j k = .ok v) :
    ∃ fields p, j = Json.obj fields ∧ fields.find? (fun q => q.1 == k) = some p ∧ p.2 = v := by
  cases j with
  | null => simp [pyGetKey] at h
  | str s => simp [pyGetKey] at h
  | num n => simp [pyGetKey] at h
  | arr xs => simp [pyGetKey] at h
  | obj fields =>
    cases hf : fields.find? (fun q => q.1 == k) with
    | none => simp [pyGetKey, hf] at h
    | some p =>
      simp only [pyGetKey, hf] at h
      injection h with hv
      exact ⟨fields, p, rfl, hf, hv⟩

theorem generatePitchTry_of_happy (j v : Json) (h : happyContent j = some v) :
    generatePitchTry j = .ok v := by
  rw [happyContent_def] at h
  cases hk : pyGetKey j "choices" with
  | error m => rw [hk] at h; simp [Except.toOption] at h
  | ok cs =>
    rw [hk] at h
    simp only [Except.toOption] at h
    cases cs with
    | null => simp at h
    | str s => simp at h
    | num n => simp at h
    | obj fields2 => simp at h
    | arr xs =>
      cases xs with
      | nil => simp at h
      | cons c0 rest =>
        simp only at h
        cases hmsg : pyGetKey c0 "message" with
        | error m => rw [hmsg] at h; simp [Except.toOption] at h
        | ok msg =>
          rw [hmsg] at h
          simp only [Except.toOption] at h
          cases hcont : pyGetKey msg "content" with
          | error m => rw [hcont] at h; simp [Except.toOption] at h
          | ok v2 =>
            rw [hcont] at h
            simp only [Except.toOption, Option.some.injEq] at h
            subst h
            obtain ⟨fields, p, rfl, hf, hp⟩ := pyGetKey_ok _ _ _ hk
            have hpq := @List.find?_some (String × Json) (fun q => q.1 == "choices") p fields hf
            have hany : fields.any (fun q => q.1 == "choices") = true :=
              List.any_eq_true.mpr ⟨p, List.mem_of_find?_eq_some hf, hpq⟩
            have hcontains : pyContainsKey (Json.obj fields) "choices" = .ok true := by
              simp [pyContainsKey, hany]
            simp [generatePitchTry, hcontains, hk, pyLen, pyGetIdx, hmsg, hcont]

theorem pyGetIdx_zero_ok (cs c0 : Json) (h : pyGetIdx cs 0 = .ok c0) :
    (∃ rest, cs = Json.arr (c0 :: rest)) ∨ (∃ c, c0 = Json.str ⟨[c]⟩) := by
  cases cs with
  | null => simp [pyGetIdx] at h
  | num n => simp [pyGetIdx] at h
  | obj fields => simp [pyGetIdx] at h
  | arr xs =>
    cases xs with
    | nil => simp [pyGetIdx] at h
    | cons a rest =>
      simp only [pyGetIdx, List.getElem?_cons_zero] at h
      injection h with ha
      exact Or.inl ⟨rest, by rw [ha]⟩
  | str s =>
    cases hc : s.data[0]? with
    | none => simp [pyGetIdx, hc] at h
    | some c =>
      simp only [pyGetIdx, hc] at h
      injection h with hc0
      exact Or.inr ⟨c, hc0.symm⟩

theorem generatePitchTry_ok_cases (j v : Json) (h : generatePitchTry j = .ok v) :
    happyContent j = some v ∨ ∃ m, v = Json.str m := by
  unfold generatePitchTry at h
  cases hc : pyContainsKey j "choices" with
  | error m => simp [hc] at h
  | ok hasChoices =>
    simp only [hc] at h
    cases hasChoices with
    | false =>
      simp only [if_false, Bool.false_eq_true] at h
      injection h with hv
      exact Or.inr ⟨_, hv.symm⟩
    | true =>
      simp only [if_true] at h
      cases hk : pyGetKey j "choices" with
      | error m => simp [hk] at h
      | ok cs =>
        simp only [hk] at h
        cases hl : pyLen cs with
        | error m => simp [hl] at h
        | ok n =>
          simp only [hl] at h
          cases hn : decide (0 < n) with
          | false =>
            simp only [hn, Bool.false_eq_true, if_false] at h
            injection h with hv
            exact Or.inr ⟨_, hv.symm⟩
          | true =>
            simp only [hn, if_true] at h
            cases hidx : pyGetIdx cs 0 with
            | error m => simp [hidx] at h
            | ok c0 =>
              simp only [hidx] at h
              cases hmsg : pyGetKey c0 "message" with
              | error m => simp [hmsg] at h
              | ok msg =>
                simp only [hmsg] at h
                rcases pyGetIdx_zero_ok cs c0 hidx with ⟨rest, rfl⟩ | ⟨c, rfl⟩
                · refine Or.inl ?_
                  rw [happyContent_def, hk]
                  simp [Except.toOption, hmsg, h]
                · simp [pyGetKey] at hmsg

/-! ## C7: generate_pitch never raises -/

/-- C7: `generate_pitch` is total: when the decoded response contains a
non-empty `choices` list through which `choices[0].message.content` is
reachable, that content is returned; in every other case — including an
exception from the HTTP call or JSON decoding, and any response of a
different shape — a text string is returned instead of an exception
propagating. -/
theorem generate_pitch_never_raises (r : HttpOutcome) :
    (∀ v, happyOf r = some v → generate_pitch r = v) ∧
    (happyOf r = none → ∃ m, generate_pitch r = Json.str m) := by
  constructor
  · intro v hv
    cases r with
    | exn m => simp [happyOf] at hv
    | ok j =>
      have hok := generatePitchTry_of_happy j v hv
      simp [generate_pitch, hok]
  · intro hnone
    cases r with
    | exn m => exact ⟨"Error generating pitch: " ++ m, rfl⟩
    | ok j =>
      cases hg : generatePitchTry j with
      | error m => exact ⟨"Error generating pitch: " ++ m, by simp [generate_pitch, hg]⟩
      | ok v =>
        rcases generatePitchTry_ok_cases j v hg with hhappy | ⟨m, rfl⟩
        · rw [show happyOf (.ok j) = happyContent j from rfl] at hnone
          rw [hnone] at hhappy
          cases hhappy
        · exact ⟨m, by simp [generate_pitch, hg]⟩

/-- C7 witness: a well-shaped response yields exactly its
`choices[0].message.content`. -/
theorem generate_pitch_never_raises_witness :
    generate_pitch (HttpOutcome.ok sampleGoodResponse) = Json.str "Hi, I can fix this." :=
  (generate_pitch_never_raises (HttpOutcome.ok sampleGoodResponse)).1
    (Json.str "Hi, I can fix this.") rfl

/-! ## Helper lemmas: `$set` updates -/

theorem lookupField_map_replace_ne (d : Doc) (k2 : String) (v : Val) (k : String)
    (h : k ≠ k2) :
    lookupField (d.map (fun p => if p.1 == k2 then (k2, v) else p)) k = lookupField d k := by
  induction d with
  | nil => rfl
  | cons p d ih =>
    by_cases hp : p.1 = k2
    · have hb : (p.1 == k2) = true := beq_iff_eq.mpr hp
      have hk2k : (k2 == k) = false := by
        cases hv2 : k2 == k
        · rfl
        · exact absurd (beq_iff_eq.mp hv2).symm h
      have hpk : (p.1 == k) = false := by
        cases hv2 : p.1 == k
        · rfl
        · exact absurd (hp ▸ beq_iff_eq.mp hv2).symm h
      simp only [List.map_cons, hb, if_true, lookupField, List.find?]
      rw [hk2k, hpk]
      exact ih
    · have hb : (p.1 == k2) = false := by
        cases hv2 : p.1 == k2
        · rfl
        · exact absurd (beq_iff_eq.mp hv2) hp
      simp only [List.map_cons, hb, Bool.false_eq_true, if_false, lookupField, List.find?]
      cases hv2 : p.1 == k
      · exact ih
      · rfl

theorem lookupField_append_single_ne (d : Doc) (k2 : String) (v : Val) (k : String)
    (h : k ≠ k2) :
    lookupField (d ++ [(k2, v)]) k = lookupField d k := by
  induction d with
  | nil =>
    have hk2k : (k2 == k) = false := by
      cases hv2 : k2 == k
      · rfl
      · exact absurd (beq_iff_eq.mp hv2).symm h
    simp only [List.nil_append, lookupField, List.find?]
    rw [hk2k]
  | cons p d ih =>
    simp only [List.cons_append, lookupField, List.find?]
    cases hv2 : p.1 == k
    · exact ih
    · rfl

theorem lookupField_setField_ne (d : Doc) (k2 : String) (v : Val) (k : String)
    (h : k ≠ k2) :
    lookupField (setField d k2 v) k = lookupField d k := by
  unfold setField
  cases ha : d.any (fun p => p.1 == k2)
  · simp only [Bool.false_eq_true, if_false]
    exact lookupField_append_single_ne d k2 v k h
  · simp only [if_true]
    exact lookupField_map_replace_ne d k2 v k h

/-! ## C8: updates mutate only `status` and `generated_pitch` -/

/-- C8: the pitch-button update writes only `status` and
`generated_pitch`; the archive status update writes only `status`;
every other field of the matched document is unchanged.  The three
scan steps never modify a stored lead: every document present before a
step is present, unchanged, after it (in particular its `status`). -/
theorem updates_mutate_only_status_and_pitch :
    (∀ (d : Doc) (pitch k : String), k ≠ "status" → k ≠ "generated_pitch" →
      lookupField (applySet d (pitchUpdateSets pitch)) k = lookupField d k) ∧
    (∀ (d : Doc) (newStatus k : String), k ≠ "status" →
      lookupField (applySet d (statusUpdateSets newStatus)) k = lookupField d k) ∧
    (∀ kw s issue l, l ∈ s → l ∈ processGhIssue kw s issue) ∧
    (∀ now kw s hit l, l ∈ s → l ∈ processHnHit now kw s hit) ∧
    (∀ kws s m l, l ∈ s → l ∈ processDiscordMessage kws s m) := by
  have hmem : ∀ (s : Store) (sid : String) (doc : Lead) (l : Lead), l ∈ s →
      l ∈ dedupStep sid doc s := by
    intro s sid doc l hl
    unfold dedupStep
    cases dbExists s sid
    · simp [insert_one, hl]
    · simpa using hl
  refine ⟨?_, ?_, ?_, ?_, ?_⟩
  · intro d pitch k h1 h2
    show lookupField (setField (setField d "status" (.s "Pitched")) "generated_pitch"
      (.s pitch)) k = lookupField d k
    rw [lookupField_setField_ne _ _ _ _ h2, lookupField_setField_ne _ _ _ _ h1]
  · intro d newStatus k h1
    show lookupField (setField d "status" (.s newStatus)) k = lookupField d k
    rw [lookupField_setField_ne _ _ _ _ h1]
  · intro kw s issue l hl
    rw [processGhIssue_eq_dedupStep]
    exact hmem s _ _ l hl
  · intro now kw s hit l hl
    rw [processHnHit_eq_dedupStep]
    exact hmem s _ _ l hl
  · intro kws s m l hl
    rw [processDiscordMessage_eq]
    cases m.author_is_self || m.author_is_bot
    · simp only [Bool.false_eq_true, if_false]
      cases matchKeyword kws m.content
      · exact hl
      · exact hmem s _ _ l hl
    · simpa using hl

/-- C8 witness: updating the status of a one-document store leaves its
`url` field unchanged. -/
theorem updates_mutate_only_status_and_pitch_witness :
    lookupField (applySet [("url", Val.s "https://example.com/1"), ("status", Val.s "New")]
      (statusUpdateSets "Fixed")) "url"
    = lookupField [("url", Val.s "https://example.com/1"), ("status", Val.s "New")] "url" :=
  updates_mutate_only_status_and_pitch.2.1
    [("url", Val.s "https://example.com/1"), ("status", Val.s "New")] "Fixed" "url"
    (by decide)

/-! ## C9: persist-then-notify, notifier invoked exactly once -/

/-- C9 (spec-modelled notifier): on a new match the pipeline persists
the lead — it is in the store afterwards — and invokes the Notifier
exactly once, with a message containing the lead's url; and the store
produced is the same whether the notification succeeds or fails, so a
notification failure never prevents persistence. -/
theorem persist_then_notify_once (kws : List String) (s : Store) (it : RawItem)
    (ok : Bool) (kw : String)
    (hm : matchKeyword kws (it.title ++ " " ++ it.content) = some kw)
    (hnew : dbExists s it.source_id = false) :
    dbExists (specPipelineStep kws s it ok).1 it.source_id = true ∧
    (specPipelineStep kws s it ok).2 = [⟨notifyText (rawLeadDoc kw it), ok⟩] ∧
    IsSubstringOf (rawLeadDoc kw it).url.data (notifyText (rawLeadDoc kw it)).data ∧
    (specPipelineStep kws s it false).1 = (specPipelineStep kws s it true).1 := by
  have hstep : ∀ b, specPipelineStep kws s it b
      = (insert_one s (rawLeadDoc kw it), [⟨notifyText (rawLeadDoc kw it), b⟩]) := by
    intro b
    unfold specPipelineStep
    rw [hm, hnew]
    rfl
  refine ⟨?_, ?_, ?_, ?_⟩
  · rw [hstep]
    exact (dbExists_eq_true_iff _ _).mpr ⟨rawLeadDoc kw it, by simp [insert_one], rfl⟩
  · rw [hstep]
  · refine ⟨("New lead: " ++ it.title ++ " ").data, [], ?_⟩
    show (("New lead: " ++ it.title) ++ " " ++ it.url).data = _
    simp only [String.data_append, List.append_nil, List.append_assoc]
    rfl
  · rw [hstep, hstep]

/-- C9 witness: the spec scenario — an item with id "gh_1" and title
"Native crash help wanted" against keyword "help wanted" is persisted
and produces exactly one notification. -/
theorem persist_then_notify_once_witness :
    dbExists (specPipelineStep ["help wanted"] [] sampleRaw true).1 "gh_1" = true ∧
    (specPipelineStep ["help wanted"] [] sampleRaw true).2.length = 1 := by
  have h := persist_then_notify_once ["help wanted"] [] sampleRaw true "help wanted" rfl rfl
  exact ⟨h.1, by rw [h.2.1]; rfl⟩

/-! ## Helper lemmas: source-id namespaces are disjoint -/

theorem discord_gh_ids_ne (a b : String) : "discord_" ++ a ≠ "gh_" ++ b := by
  intro h
  have h2 := congrArg String.data h
  rw [String.data_append, String.data_append] at h2
  have e1 : "discord_".data = 'd' :: ['i', 's', 'c', 'o', 'r', 'd', '_'] := rfl
  have e2 : "gh_".data = 'g' :: ['h', '_'] := rfl
  rw [e1, e2, List.cons_append, List.cons_append] at h2
  injection h2 with h3 _
  exact absurd h3 (by decide)

theorem discord_hn_ids_ne (a b : String) : "discord_" ++ a ≠ "hn_" ++ b := by
  intro h
  have h2 := congrArg String.data h
  rw [String.data_append, String.data_append] at h2
  have e1 : "discord_".data = 'd' :: ['i', 's', 'c', 'o', 'r', 'd', '_'] := rfl
  have e2 : "hn_".data = 'h' :: ['n', '_'] := rfl
  rw [e1, e2, List.cons_append, List.cons_append] at h2
  injection h2 with h3 _
  exact absurd h3 (by decide)

theorem gh_hn_ids_ne (a b : String) : "gh_" ++ a ≠ "hn_" ++ b := by
  intro h
  have h2 := congrArg String.data h
  rw [String.data_append, String.data_append] at h2
  have e1 : "gh_".data = 'g' :: ['h', '_'] := rfl
  have e2 : "hn_".data = 'h' :: ['n', '_'] := rfl
  rw [e1, e2, List.cons_append, List.cons_append] at h2
  injection h2 with h3 _
  exact absurd h3 (by decide)

/-! ## C10: inserted leads are New, pitchless, and namespaced -/

/-- C10: every lead document built by the three scan loops has status
"New", an empty `generated_pitch`, and a `source_id` carrying its
loop's namespace ("discord_", "gh_", "hn_"); the namespaces are
pairwise incompatible, so leads from different sources can never share
a `source_id`. -/
theorem inserted_leads_new_and_namespaced :
    (∀ kw issue, (ghLeadDoc kw issue).status = "New" ∧
      (ghLeadDoc kw issue).generated_pitch = "" ∧
      ∃ r, (ghLeadDoc kw issue).source_id = "gh_" ++ r) ∧
    (∀ now kw hit, (hnLeadDoc now kw hit).status = "New" ∧
      (hnLeadDoc now kw hit).generated_pitch = "" ∧
      ∃ r, (hnLeadDoc now kw hit).source_id = "hn_" ++ r) ∧
    (∀ kw m, (discordLeadDoc kw m).status = "New" ∧
      (discordLeadDoc kw m).generated_pitch = "" ∧
      ∃ r, (discordLeadDoc kw m).source_id = "discord_" ++ r) ∧
    (∀ kw1 m kw2 issue,
      (discordLeadDoc kw1 m).source_id ≠ (ghLeadDoc kw2 issue).source_id) ∧
    (∀ kw1 m now kw2 hit,
      (discordLeadDoc kw1 m).source_id ≠ (hnLeadDoc now kw2 hit).source_id) ∧
    (∀ kw1 issue now kw2 hit,
      (ghLeadDoc kw1 issue).source_id ≠ (hnLeadDoc now kw2 hit).source_id) := by
  refine ⟨fun kw issue => ⟨rfl, rfl, toString issue.id, rfl⟩,
    fun now kw hit => ⟨rfl, rfl, hit.objectID, rfl⟩,
    fun kw m => ⟨rfl, rfl, toString m.id, rfl⟩, ?_, ?_, ?_⟩
  · intro kw1 m kw2 issue
    exact discord_gh_ids_ne (toString m.id) (toString issue.id)
  · intro kw1 m now kw2 hit
    exact discord_hn_ids_ne (toString m.id) hit.objectID
  · intro kw1 issue now kw2 hit
    exact gh_hn_ids_ne (toString issue.id) hit.objectID

/-- C10 witness: a concrete GitHub lead is New with an empty pitch, and
its id differs from a concrete Discord lead's id. -/
theorem inserted_leads_new_and_namespaced_witness :
    (ghLeadDoc "bounty" sampleIssue).status = "New" ∧
    (discordLeadDoc "bug" sampleMsg).source_id ≠ (ghLeadDoc "bounty" sampleIssue).source_id :=
  ⟨(inserted_leads_new_and_namespaced.1 "bounty" sampleIssue).1,
   inserted_leads_new_and_namespaced.2.2.2.1 "bug" sampleMsg "bounty" sampleIssue⟩

end JobSearcher
